import Mathlib

/-!
Verification of the electra-agent-orchestration repository.

This file gives a shallow embedding, in Lean 4, of the parts of the Python
source that the specification's claims are about:

* `TranscriptHandler.merge_strings` (src/EVAA/services/stt.py), including a
  faithful model of `difflib.SequenceMatcher.ratio()` (Ratcliff/Obershelp
  gestalt matching, as difflib computes it for inputs below its autojunk
  threshold, which is the regime all the spec's examples live in);
* the turn-finalization filter `FluxSTT._handle_turn_info`
  (src/services/flux_stt.py);
* the connection state machines of `FluxSTT` (start / `_handle_disconnect` /
  cleanup, src/services/flux_stt.py) and of the `STT` variant
  (src/EVAA/services/stt.py), with the network's connect outcomes supplied as
  an explicit boolean oracle and the reconnect backoff delay;
* the conversation orchestrator state (`ConversationModel`,
  src/models/conversation_model.py): `get_db_data` hydration,
  `_set_first_stage`, and `move_to_next_stage`, together with the outbound
  event behaviour of `WebSocketHandler.send_error` / `end_session`
  (src/services/websocket_handler.py).

Modelling conventions:

* Python `str` is modelled as `List Char`; `str.lower()` as `List.map
  Char.toLower` (the ASCII model of Python's lowercasing), `str.strip()` and
  no-argument `str.split()` by the whitespace-run functions below.
* Python floats (confidence scores, similarity ratios, delays, timestamps)
  are modelled exactly over `ℚ`; literals such as `0.6`, `0.7`, `0.8` become
  the rationals `3/5`, `7/10`, `4/5`.
* `bson.ObjectId(s)` is modelled as accepting exactly the 24-hex-digit
  strings, with the lowercased hex as the canonical value; stage documents
  hold their id in canonical form.
* Async control flow is sequentialized: the reconnect lock collapses nested
  `_handle_disconnect` invocations exactly as in the source (a nested call
  always sees `is_connected = False` and returns at its guard), and each
  connect attempt consumes one outcome from a boolean oracle.
-/

/-! ## Python string primitives -/

/-- Python truth-relevant whitespace test used by `str.split()` / `str.strip()`
(restricted to the whitespace characters that occur in transcripts). -/
def pyIsWs (c : Char) : Bool := c.isWhitespace

/-- `s.lower()`: ASCII lowercasing, character by character. -/
def pyLower (s : List Char) : List Char := s.map Char.toLower

/-- `s.strip()`: drop leading and trailing whitespace. -/
def pyStrip (s : List Char) : List Char :=
  ((s.dropWhile pyIsWs).reverse.dropWhile pyIsWs).reverse

/-- Worker for `pySplit`: `acc` is the current word, reversed. -/
def pySplitGo : List Char → List Char → List (List Char)
  | acc, [] => if acc = [] then [] else [acc.reverse]
  | acc, c :: cs =>
    if pyIsWs c then
      if acc = [] then pySplitGo [] cs else acc.reverse :: pySplitGo [] cs
    else pySplitGo (c :: acc) cs

/-- `s.split()` with no separator: the maximal runs of non-whitespace
characters, in order; leading/trailing/repeated whitespace yields no empty
words. -/
def pySplit (s : List Char) : List (List Char) := pySplitGo [] s

/-- `" ".join(ws)`. -/
def pyJoinWords : List (List Char) → List Char
  | [] => []
  | [w] => w
  | w :: ws => w ++ ' ' :: pyJoinWords ws

/-- The final cleanup `merge_strings` applies to its result:
`" ".join(result.split())` followed by `.strip()`. -/
def pyCleanup (s : List Char) : List Char := pyStrip (pyJoinWords (pySplit s))

/-! ## difflib.SequenceMatcher ratio -/

/-- Length of the longest common prefix of two character lists. -/
def commonPrefixLen : List Char → List Char → ℕ
  | a :: as, b :: bs => if a = b then commonPrefixLen as bs + 1 else 0
  | _, _ => 0

/-- `SequenceMatcher.find_longest_match` over whole sequences: the longest
common substring, with ties broken by the earliest start in `a`, then the
earliest start in `b` (difflib's documented tie-breaking, no junk).
Returns `(i, j, k)`: the match is `a[i:i+k] = b[j:j+k]`. -/
def bestMatch (a b : List Char) : ℕ × ℕ × ℕ :=
  (List.range a.length).foldl
    (fun best i =>
      (List.range b.length).foldl
        (fun best j =>
          let k := commonPrefixLen (a.drop i) (b.drop j)
          if best.2.2 < k then (i, j, k) else best)
        best)
    (0, 0, 0)

/-- Total size of `get_matching_blocks`: recursively take the longest match
and recurse on the pieces to its left and to its right.  The fuel argument
only bounds the recursion depth; the depth is at most `a.length`, so the
wrapper `matchedSize` below never exhausts it. -/
def matchedSizeGo : ℕ → List Char → List Char → ℕ
  | 0, _, _ => 0
  | fuel + 1, a, b =>
    let m := bestMatch a b
    let i := m.1
    let j := m.2.1
    let k := m.2.2
    if k = 0 then 0
    else
      matchedSizeGo fuel (a.take i) (b.take j) + k +
        matchedSizeGo fuel (a.drop (i + k)) (b.drop (j + k))

/-- Total number of matched characters across all matching blocks. -/
def matchedSize (a b : List Char) : ℕ := matchedSizeGo (a.length + 1) a b

/-- `SequenceMatcher(None, a, b).ratio() = 2*M/T` where `M` is the matched
size and `T` the total length; difflib returns `1.0` when `T = 0`. -/
def seqRatio (a b : List Char) : ℚ :=
  if a.length + b.length = 0 then 1
  else mkRat (2 * matchedSize a b) (a.length + b.length)

/-! ## TranscriptHandler.merge_strings -/

/-- The word-overlap search loop of `merge_strings`: for `i` from 1 to
`min(len(old_words), len(new_words))`, compare the last `i` words of `old`
with the first `i` words of `new`; an exact match records `(i, i)`, otherwise
a fuzzy candidate (at least 70% of the `i` word pairs with ratio > 0.8,
the float comparisons carried out exactly over `ℚ`)
replaces the best when it matches more words.  Returns
`(best_overlap, best_overlap_words)`. -/
def wordOverlapFold (oldWords newWords : List (List Char)) : ℕ × ℕ :=
  (List.range' 1 (min oldWords.length newWords.length)).foldl
    (fun best i =>
      let oldSuffix := oldWords.drop (oldWords.length - i)
      let newPrefix := newWords.take i
      if oldSuffix = newPrefix then (i, i)
      else
        let matchCount :=
          ((oldSuffix.zip newPrefix).filter
            (fun p => mkRat 4 5 < seqRatio p.1 p.2)).length
        if 7 * i ≤ 10 * matchCount then
          if best.2 < matchCount then (i, matchCount) else best
        else best)
    (0, 0)

/-- The character-overlap fallback loop: the first `i` (scanning from 1 up to
`min(len(old), len(new))`) such that the `i`-suffix of `old` and the
`i`-prefix of `new` have ratio ≥ threshold; 0 when none qualifies. -/
def charOverlapGo (old new : List Char) (threshold : ℚ) : ℕ → ℕ → ℕ
  | 0, _ => 0
  | rem + 1, i =>
    if threshold ≤ seqRatio (old.drop (old.length - i)) (new.take i) then i
    else charOverlapGo old new threshold rem (i + 1)

/-- Character-level overlap search of `merge_strings`. -/
def charOverlap (old new : List Char) (threshold : ℚ) : ℕ :=
  charOverlapGo old new threshold (min old.length new.length) 1

/-- `TranscriptHandler.merge_strings(old, new, threshold=0.7)`
(src/EVAA/services/stt.py). -/
def mergeStrings (old new : List Char) (threshold : ℚ := mkRat 7 10) : List Char :=
  if old = [] then new
  else if new = [] then old
  else
    let oldWords := pySplit (pyStrip (pyLower old))
    let newWords := pySplit (pyStrip (pyLower new))
    if oldWords = [] ∨ newWords = [] then
      if old ≠ [] ∧ new ≠ [] then old ++ ' ' :: new
      else if old ≠ [] then old else new
    else
      let wb := wordOverlapFold oldWords newWords
      let bestOverlap := if wb.1 = 0 then charOverlap old new threshold else wb.1
      let result :=
        if 0 < bestOverlap then
          if 0 < wb.2 then
            pyJoinWords (oldWords.take (oldWords.length - bestOverlap)) ++
              ' ' :: pyJoinWords (newWords.drop bestOverlap)
          else
            old.take (old.length - bestOverlap) ++ new.drop bestOverlap
        else old ++ ' ' :: new
      pyCleanup result

/-- Which branch of `merge_strings` produced the result, with the chosen
overlap length; computed by exactly the comparisons the source performs. -/
inductive MergePath where
  | emptyOld
  | emptyNew
  | noWords
  | wordPath (k : ℕ)
  | charPath (k : ℕ)
  | concatPath
deriving DecidableEq

/-- Path classifier for `merge_strings`: mirrors its branch structure. -/
def mergePath (old new : List Char) (threshold : ℚ := mkRat 7 10) : MergePath :=
  if old = [] then .emptyOld
  else if new = [] then .emptyNew
  else
    let oldWords := pySplit (pyStrip (pyLower old))
    let newWords := pySplit (pyStrip (pyLower new))
    if oldWords = [] ∨ newWords = [] then .noWords
    else
      let wb := wordOverlapFold oldWords newWords
      let bestOverlap := if wb.1 = 0 then charOverlap old new threshold else wb.1
      if 0 < bestOverlap then
        if 0 < wb.2 then .wordPath bestOverlap else .charPath bestOverlap
      else .concatPath

/-! ## FluxSTT: turn finalization (`_handle_turn_info`) -/

/-- The transcript-filtering state of `FluxSTT`: `last_turn_time` (a float
timestamp or `None`) and `last_transcript` (the last finalized, stripped
text; initially `""`). -/
structure FluxTurnState where
  last_turn_time : Option ℚ
  last_transcript : List Char
deriving DecidableEq

/-- `self.threshold = 5` seconds between transcript callbacks. -/
def turnThreshold : ℚ := 5

/-- `FluxSTT._handle_turn_info` (src/services/flux_stt.py): given the event's
transcript and `end_of_turn_confidence` and the current wall-clock time,
returns the new state and the text passed to the upward callback (when the
turn is finalized).  `time_since_last` is `now - last_turn_time` when
`last_turn_time` is truthy (Python: a non-`None`, non-zero float) and `+∞`
otherwise; `+∞` is modelled by `none` and always exceeds the threshold. -/
def handleTurnInfo (s : FluxTurnState) (transcript : List Char) (confidence : ℚ)
    (now : ℚ) : FluxTurnState × Option (List Char) :=
  let text := pyStrip transcript
  if text = [] ∨ text = s.last_transcript then (s, none)
  else
    let timeSince : Option ℚ :=
      match s.last_turn_time with
      | some t => if t = 0 then none else some (now - t)
      | none => none
    let timeOk : Bool :=
      match timeSince with
      | none => true
      | some d => decide (turnThreshold < d)
    if mkRat 3 5 < confidence ∧ timeOk = true then
      (⟨some now, text⟩, some text)
    else (s, none)

/-! ## FluxSTT: connection lifecycle -/

/-- Connection-relevant state of a `FluxSTT` instance: `is_connected`,
`reconnect_attempts`, and whether a websocket object is held (`self.ws`). -/
structure FluxConnState where
  is_connected : Bool
  reconnect_attempts : ℕ
  has_ws : Bool
deriving DecidableEq

/-- `self.max_reconnect_attempts = 5` (both client variants). -/
def maxReconnectAttempts : ℕ := 5

/-- Observable steps the connection code performs, used to state where
increments, resets, sleeps and terminal reports happen. -/
inductive ConnEvent where
  | connectSuccess
  | connectFail
  | sleepEv
  | startCall
  | terminalFailure
deriving DecidableEq

/-- `FluxSTT._cleanup_connection`: close and drop the socket, clear
`is_connected`. -/
def fluxCleanupConnection (s : FluxConnState) : FluxConnState :=
  { s with has_ws := false, is_connected := false }

mutual

/-- `FluxSTT.start`: clean up, then attempt to connect (`ok` is the network's
outcome).  Success sets `is_connected := true` and `reconnect_attempts := 0`;
failure runs `_handle_disconnect` and re-raises as `ConnectionError`.  The
fuel only bounds the `start`/`_handle_disconnect` mutual recursion; a nested
`_handle_disconnect` always finds `is_connected = false` (cleanup ran first)
and returns at its guard, so fuel 2 at top level is never exhausted. -/
def fluxStartGo : ℕ → Bool → FluxConnState → FluxConnState × List ConnEvent
  | fuel, ok, s =>
    let s1 := fluxCleanupConnection s
    if ok then
      ({ is_connected := true, reconnect_attempts := 0, has_ws := true },
        [.connectSuccess])
    else
      match fuel with
      | 0 => (s1, [.connectFail])
      | fuel' + 1 =>
        let r := fluxHDGo fuel' ok s1
        (r.1, .connectFail :: r.2)

/-- `FluxSTT._handle_disconnect` under the reconnect lock: no-op when already
disconnected; otherwise mark disconnected, clean up, stop with a terminal
report once `reconnect_attempts >= max_reconnect_attempts`, else sleep the
backoff delay, increment `reconnect_attempts` and call `start()` again
(its `ConnectionError` is caught and logged). -/
def fluxHDGo : ℕ → Bool → FluxConnState → FluxConnState × List ConnEvent
  | fuel, ok, s =>
    if s.is_connected = false then (s, [])
    else
      let s1 := fluxCleanupConnection { s with is_connected := false }
      if maxReconnectAttempts ≤ s1.reconnect_attempts then (s1, [.terminalFailure])
      else
        let s2 := { s1 with reconnect_attempts := s1.reconnect_attempts + 1 }
        match fuel with
        | 0 => (s2, [.sleepEv, .startCall])
        | fuel' + 1 =>
          let r := fluxStartGo fuel' ok s2
          (r.1, .sleepEv :: .startCall :: r.2)

end

/-- `FluxSTT.start` with enough fuel for the (depth-two) mutual recursion. -/
def fluxStart (ok : Bool) (s : FluxConnState) : FluxConnState × List ConnEvent :=
  fluxStartGo 2 ok s

/-- `FluxSTT._handle_disconnect` with enough fuel. -/
def fluxHandleDisconnect (ok : Bool) (s : FluxConnState) :
    FluxConnState × List ConnEvent :=
  fluxHDGo 2 ok s

/-- The externally triggerable operations that touch `FluxSTT`'s connection
state: a `start()` call, any of the code paths that invoke
`_handle_disconnect` (send failure, send on a dead connection, an `Error` or
`Close` event, the receiver loop ending), and `finish()`.  Turn events and
successful sends leave the connection state unchanged. -/
inductive FluxAction where
  | startA (ok : Bool)
  | triggerA (ok : Bool)
  | finishA

/-- One step of the `FluxSTT` connection state machine. -/
def fluxApply : FluxAction → FluxConnState → FluxConnState × List ConnEvent
  | .startA ok, s => fluxStart ok s
  | .triggerA ok, s => fluxHandleDisconnect ok s
  | .finishA, s => (fluxCleanupConnection s, [])

/-- The state `FluxSTT.__init__` establishes. -/
def fluxInit : FluxConnState :=
  { is_connected := false, reconnect_attempts := 0, has_ws := false }

/-- States reachable from the freshly constructed client by any sequence of
operations and network outcomes. -/
def FluxReachable (s : FluxConnState) : Prop :=
  Relation.ReflTransGen (fun a b => ∃ act, (fluxApply act a).1 = b) fluxInit s

/-- Reconnect backoff before capping: `2 ** reconnect_attempts + jitter`,
where `jitter` is the value drawn from `random.random()` /
`random.uniform(0, 1)`. -/
def backoffRaw (attempts : ℕ) (jitter : ℚ) : ℚ := 2 ^ attempts + jitter

/-- `delay = min(2 ** reconnect_attempts + jitter, 10)` seconds
(src/services/flux_stt.py line 305; same formula in src/EVAA/services/stt.py
line 266). -/
def backoffDelay (attempts : ℕ) (jitter : ℚ) : ℚ :=
  min (backoffRaw attempts jitter) 10

/-! ## STT variant (src/EVAA/services/stt.py) connection lifecycle -/

/-- Connection-relevant state of the `STT` class: `is_connected`,
`reconnect_attempts`, and whether a Deepgram connection object is held. -/
structure SttConnState where
  is_connected : Bool
  reconnect_attempts : ℕ
  has_conn : Bool
deriving DecidableEq

/-- `STT._cleanup_connection`: cancel the heartbeat and drop the connection
object.  Unlike the Flux variant it does not touch `is_connected`. -/
def sttCleanup (s : SttConnState) : SttConnState := { s with has_conn := false }

/-- `STT.start`: clean up, reconnect; on success `is_connected := true`,
`reconnect_attempts := 0`, returns `True`; on failure `is_connected := false`
and returns `False` (no exception escapes). -/
def sttStart (ok : Bool) (s : SttConnState) :
    SttConnState × Bool × List ConnEvent :=
  let s1 := sttCleanup s
  if ok then
    ({ is_connected := true, reconnect_attempts := 0, has_conn := true }, true,
      [.connectSuccess])
  else ({ s1 with is_connected := false }, false, [.connectFail])

/-- `STT._handle_disconnect` under the reconnect lock: sets
`is_connected := false` unconditionally (no already-disconnected guard),
reports and stops when `reconnect_attempts >= max_reconnect_attempts`,
otherwise sleeps the backoff delay, increments `reconnect_attempts` and calls
`start()`. -/
def sttHandleDisconnect (ok : Bool) (s : SttConnState) :
    SttConnState × List ConnEvent :=
  let s1 := { s with is_connected := false }
  if maxReconnectAttempts ≤ s1.reconnect_attempts then (s1, [.terminalFailure])
  else
    let s2 := { s1 with reconnect_attempts := s1.reconnect_attempts + 1 }
    let r := sttStart ok s2
    (r.1, .sleepEv :: .startCall :: r.2.2)

/-! ## ConversationModel (src/models/conversation_model.py) -/

/-- A stage document (db/models/stage.py): `id` is the ObjectId in canonical
24-hex-digit lowercase form. -/
structure StageDef where
  id : List Char
  name : List Char
  description : List Char
  goal : List Char
  order : ℤ
deriving DecidableEq

instance : Inhabited StageDef := ⟨⟨[], [], [], [], 0⟩⟩

/-- The part of a `ChatMemory` document that hydration reads. -/
structure MemoryRec where
  current_stage_id : Option (List Char)
deriving DecidableEq

/-- Outbound events of `WebSocketHandler` relevant here, plus the internal
stage-intro request `move_to_next_stage` issues through
`first_question_of_the_stage`. -/
inductive ConvEvent where
  | errorEv (msg : List Char)
  | closeEv
  | endSessionEv
  | stageIntroReq
deriving DecidableEq

/-- The `WebSocketException` that `WebSocketHandler.send_error` raises. -/
structure WsExc where
  code : ℕ
  reason : List Char
deriving DecidableEq

/-- `WebSocketHandler.send_error`: send the error event, close the socket,
then unconditionally raise `WebSocketException(code=1011, reason=error)`
(src/services/websocket_handler.py lines 195-213; its own docstring:
"Always raises with the provided error message"). -/
def sendError (msg : List Char) : List ConvEvent × WsExc :=
  ([.errorEv msg, .closeEv], ⟨1011, msg⟩)

/-- The fields of `ConversationModel` that stage tracking uses.
`__init__` sets `current_stage_index = 0`, every `current_*` field to `None`,
`is_new_project = False`, and `stages` is filled by `get_db_data` (the empty
list also stands for the initial `None`). -/
structure ConvState where
  stages : List StageDef
  current_stage_index : ℕ
  current_stage_id : Option (List Char)
  current_stage_name : Option (List Char)
  current_stage_description : Option (List Char)
  current_stage_goal : Option (List Char)
  current_stage_order : Option ℤ
  is_new_project : Bool
deriving DecidableEq

/-- The state `ConversationModel.__init__` establishes. -/
def convInit : ConvState :=
  { stages := []
    current_stage_index := 0
    current_stage_id := none
    current_stage_name := none
    current_stage_description := none
    current_stage_goal := none
    current_stage_order := none
    is_new_project := false }

/-- `ConversationModel._set_first_stage`: when the catalog is non-empty, point
every `current_*` field at its first stage (the index is untouched);
otherwise `send_error("No stages found in database")`, whose raised
`WebSocketException` propagates (third component). -/
def setFirstStage (s : ConvState) : ConvState × List ConvEvent × Option WsExc :=
  match s.stages with
  | first :: _ =>
    ({ s with
        current_stage_id := some first.id
        current_stage_name := some first.name
        current_stage_description := some first.description
        current_stage_goal := some first.goal
        current_stage_order := some first.order }, [], none)
  | [] =>
    let r := sendError "No stages found in database".data
    (s, r.1, some r.2)

/-- One hex digit, as `bson.ObjectId` accepts them. -/
def isHexChar (c : Char) : Bool :=
  c.isDigit || ('a' ≤ c && c ≤ 'f') || ('A' ≤ c && c ≤ 'F')

/-- `ObjectId(raw)`: succeeds exactly on 24-hex-digit strings, producing the
canonical (lowercased) value; raises otherwise (`none`). -/
def objectIdCanon (raw : List Char) : Option (List Char) :=
  if raw.length = 24 ∧ raw.all isHexChar then some (pyLower raw) else none

/-- `ConversationModel.get_db_data`: store the loaded memory and ordered
stage catalog; when the memory holds a truthy `current_stage_id` that parses
as an ObjectId and matches a stage, copy that stage's id/name/description/
goal/order into the `current_*` fields (`current_stage_index` is not
updated); in every other case set `is_new_project := true` and fall back to
`_set_first_stage`. -/
def getDbData (memory : Option MemoryRec) (stages : List StageDef)
    (s : ConvState) : ConvState × List ConvEvent × Option WsExc :=
  let s := { s with stages := stages }
  let fallback := fun (s : ConvState) => setFirstStage { s with is_new_project := true }
  match memory with
  | some m =>
    match m.current_stage_id with
    | some raw =>
      if raw = [] then fallback s
      else
        match objectIdCanon raw with
        | some oid =>
          match stages.find? (fun st => st.id = oid) with
          | some st =>
            ({ s with
                current_stage_id := some st.id
                current_stage_name := some st.name
                current_stage_description := some st.description
                current_stage_goal := some st.goal
                current_stage_order := some st.order }, [], none)
          | none => fallback s
        | none => fallback s
    | none => fallback s
  | none => fallback s

/-- `ConversationModel.move_to_next_stage`: when a next stage exists
(`current_stage_index + 1 < len(stages)`), advance the index, repoint every
`current_*` field at the new stage and issue the internal stage-intro request
(`first_question_of_the_stage`), returning `True`; otherwise ask the
websocket handler to end the session and return `False`. -/
def moveToNextStage (s : ConvState) : ConvState × Bool × List ConvEvent :=
  if s.current_stage_index + 1 < s.stages.length then
    let i := s.current_stage_index + 1
    let st := s.stages.getD i default
    ({ s with
        current_stage_index := i
        current_stage_name := some st.name
        current_stage_description := some st.description
        current_stage_goal := some st.goal
        current_stage_id := some st.id
        current_stage_order := some st.order }, true, [.stageIntroReq])
  else (s, false, [.endSessionEv])

/-! ## Concrete fixtures used by witnesses and counterexamples -/

/-- The non-whitespace characters of a string, in order: what survives any
amount of whitespace collapsing, and what carries the letter casing. -/
def nonWsChars (s : List Char) : List Char := s.filter (fun c => !pyIsWs c)

/-- First stage of a three-stage demo catalog. -/
def stageOne : StageDef :=
  ⟨"aaaaaaaaaaaaaaaaaaaaaaaa".data, "intro".data, "first stage".data,
    "collect basics".data, 1⟩

/-- Second stage of the demo catalog. -/
def stageTwo : StageDef :=
  ⟨"bbbbbbbbbbbbbbbbbbbbbbbb".data, "detail".data, "second stage".data,
    "collect details".data, 2⟩

/-- Third stage of the demo catalog. -/
def stageThree : StageDef :=
  ⟨"cccccccccccccccccccccccc".data, "wrapup".data, "third stage".data,
    "wrap up".data, 3⟩

/-- A three-stage catalog, ordered by `order`. -/
def demoCatalog : List StageDef := [stageOne, stageTwo, stageThree]

/-- A freshly hydrated session over the demo catalog, at stage index 0. -/
def demoSession : ConvState := { convInit with stages := demoCatalog }

/-! ## Helper lemmas about the string primitives -/

theorem char_toLower_toLower (c : Char) : c.toLower.toLower = c.toLower := by
  simp only [Char.toLower]
  by_cases h : 65 ≤ c.toNat ∧ c.toNat ≤ 90
  · rw [if_pos h]
    have hv : (c.toNat + 32).isValidChar := Or.inl (by omega)
    have ht : (Char.ofNat (c.toNat + 32)).toNat = c.toNat + 32 := by
      rw [Char.ofNat, dif_pos hv]
      rfl
    rw [ht, if_neg (by omega)]
  · rw [if_neg h, if_neg h]

theorem mem_pyLower_fixed {c : Char} {s : List Char} (h : c ∈ pyLower s) :
    c.toLower = c := by
  simp only [pyLower, List.mem_map] at h
  obtain ⟨d, _, rfl⟩ := h
  exact char_toLower_toLower d

theorem pyLower_eq_self {s : List Char} (h : ∀ c ∈ s, c.toLower = c) :
    pyLower s = s := by
  induction s with
  | nil => rfl
  | cons c cs ih =>
    have hcs : pyLower cs = cs := ih fun d hd => h d (by simp [hd])
    simp only [pyLower, List.map_cons] at hcs ⊢
    rw [h c (by simp), hcs]

theorem pyStrip_subset (s : List Char) : pyStrip s ⊆ s := by
  intro c hc
  simp only [pyStrip, List.mem_reverse] at hc
  have h1 := List.dropWhile_subset (l := (s.dropWhile pyIsWs).reverse) pyIsWs hc
  rw [List.mem_reverse] at h1
  exact List.dropWhile_subset pyIsWs h1

theorem pySplitGo_chars (acc s : List Char) :
    ∀ w ∈ pySplitGo acc s, ∀ c ∈ w, c ∈ acc ∨ c ∈ s := by
  induction s generalizing acc with
  | nil =>
    intro w hw c hc
    by_cases ha : acc = []
    · simp [pySplitGo, ha] at hw
    · simp only [pySplitGo, if_neg ha, List.mem_singleton] at hw
      subst hw
      exact Or.inl (List.mem_reverse.mp hc)
  | cons x xs ih =>
    intro w hw c hc
    simp only [pySplitGo] at hw
    by_cases hx : pyIsWs x
    · rw [if_pos hx] at hw
      by_cases ha : acc = []
      · rw [if_pos ha] at hw
        rcases ih [] w hw c hc with h | h
        · simp at h
        · exact Or.inr (by simp [h])
      · rw [if_neg ha] at hw
        rcases List.mem_cons.mp hw with rfl | hw'
        · exact Or.inl (List.mem_reverse.mp hc)
        · rcases ih [] w hw' c hc with h | h
          · simp at h
          · exact Or.inr (by simp [h])
    · rw [if_neg hx] at hw
      rcases ih (x :: acc) w hw c hc with h | h
      · rcases List.mem_cons.mp h with rfl | h'
        · exact Or.inr (by simp)
        · exact Or.inl h'
      · exact Or.inr (by simp [h])

theorem pySplit_word_subset {s w : List Char} (hw : w ∈ pySplit s) : w ⊆ s := by
  intro c hc
  rcases pySplitGo_chars [] s w hw c hc with h | h
  · simp at h
  · exact h

theorem pySplitGo_no_ws (acc s : List Char) (hacc : ∀ c ∈ acc, pyIsWs c = false) :
    ∀ w ∈ pySplitGo acc s, ∀ c ∈ w, pyIsWs c = false := by
  induction s generalizing acc with
  | nil =>
    intro w hw c hc
    by_cases ha : acc = []
    · simp [pySplitGo, ha] at hw
    · simp only [pySplitGo, if_neg ha, List.mem_singleton] at hw
      subst hw
      exact hacc c (List.mem_reverse.mp hc)
  | cons x xs ih =>
    intro w hw c hc
    simp only [pySplitGo] at hw
    by_cases hx : pyIsWs x
    · rw [if_pos hx] at hw
      by_cases ha : acc = []
      · rw [if_pos ha] at hw
        exact ih [] (by simp) w hw c hc
      · rw [if_neg ha] at hw
        rcases List.mem_cons.mp hw with rfl | hw'
        · exact hacc c (List.mem_reverse.mp hc)
        · exact ih [] (by simp) w hw' c hc
    · rw [if_neg hx] at hw
      refine ih (x :: acc) ?_ w hw c hc
      intro d hd
      rcases List.mem_cons.mp hd with rfl | hd'
      · simpa using hx
      · exact hacc d hd'

theorem pySplit_no_ws {s w : List Char} (hw : w ∈ pySplit s) :
    ∀ c ∈ w, pyIsWs c = false :=
  pySplitGo_no_ws [] s (by simp) w hw

theorem pyJoinWords_mem (c : Char) :
    ∀ ws : List (List Char), c ∈ pyJoinWords ws → c = ' ' ∨ ∃ w ∈ ws, c ∈ w
  | [], h => by simp [pyJoinWords] at h
  | [w], h => by
    simp only [pyJoinWords] at h
    exact Or.inr ⟨w, by simp, h⟩
  | w :: v :: rest, h => by
    simp only [pyJoinWords, List.mem_append, List.mem_cons] at h
    rcases h with h | h | h
    · exact Or.inr ⟨w, by simp, h⟩
    · exact Or.inl h
    · rcases pyJoinWords_mem c (v :: rest) h with h' | ⟨u, hu, hcu⟩
      · exact Or.inl h'
      · exact Or.inr ⟨u, by simp [List.mem_cons.mp hu], hcu⟩

theorem pyCleanup_mem {c : Char} {s : List Char} (h : c ∈ pyCleanup s) :
    c = ' ' ∨ c ∈ s := by
  have h1 : c ∈ pyJoinWords (pySplit s) := pyStrip_subset _ h
  rcases pyJoinWords_mem c (pySplit s) h1 with h' | ⟨w, hw, hcw⟩
  · exact Or.inl h'
  · exact Or.inr (pySplit_word_subset hw hcw)

theorem filter_not_dropWhile (p : Char → Bool) (l : List Char) :
    (l.dropWhile p).filter (fun a => !p a) = l.filter (fun a => !p a) := by
  induction l with
  | nil => rfl
  | cons a as ih =>
    by_cases ha : p a
    · simp [List.dropWhile_cons, ha, List.filter_cons, ih]
    · simp [List.dropWhile_cons, ha, List.filter_cons]

theorem nonWsChars_pyStrip (s : List Char) :
    nonWsChars (pyStrip s) = nonWsChars s := by
  simp only [nonWsChars, pyStrip]
  rw [List.filter_reverse, filter_not_dropWhile, List.filter_reverse,
    List.reverse_reverse, filter_not_dropWhile]

theorem nonWsChars_append (a b : List Char) :
    nonWsChars (a ++ b) = nonWsChars a ++ nonWsChars b := by
  simp [nonWsChars, List.filter_append]

theorem pySplitGo_flatten (acc s : List Char) :
    (pySplitGo acc s).flatten = acc.reverse ++ nonWsChars s := by
  induction s generalizing acc with
  | nil =>
    by_cases ha : acc = []
    · simp [pySplitGo, ha, nonWsChars]
    · simp [pySplitGo, ha, nonWsChars]
  | cons x xs ih =>
    by_cases hx : pyIsWs x
    · by_cases ha : acc = []
      · rw [show pySplitGo acc (x :: xs) = pySplitGo [] xs by
          simp [pySplitGo, hx, ha], ih]
        simp [nonWsChars, List.filter_cons, hx, ha]
      · rw [show pySplitGo acc (x :: xs) = acc.reverse :: pySplitGo [] xs by
          simp [pySplitGo, hx, ha], List.flatten_cons, ih]
        simp [nonWsChars, List.filter_cons, hx]
    · rw [show pySplitGo acc (x :: xs) = pySplitGo (x :: acc) xs by
        simp [pySplitGo, hx], ih]
      simp [nonWsChars, List.filter_cons, hx]

theorem pySplit_flatten (s : List Char) : (pySplit s).flatten = nonWsChars s := by
  simpa using pySplitGo_flatten [] s

theorem nonWsChars_pyJoinWords :
    ∀ ws : List (List Char), (∀ w ∈ ws, ∀ c ∈ w, pyIsWs c = false) →
      nonWsChars (pyJoinWords ws) = ws.flatten
  | [], _ => rfl
  | [w], h => by
    simp only [pyJoinWords, List.flatten_cons, List.flatten_nil, List.append_nil]
    exact List.filter_eq_self.mpr fun c hc => by simp [h w (by simp) c hc]
  | w :: v :: rest, h => by
    simp only [pyJoinWords, List.flatten_cons]
    rw [nonWsChars_append]
    have h1 : nonWsChars w = w :=
      List.filter_eq_self.mpr fun c hc => by simp [h w (by simp) c hc]
    have h2 : nonWsChars (' ' :: pyJoinWords (v :: rest)) =
        nonWsChars (pyJoinWords (v :: rest)) := by
      simp only [nonWsChars, List.filter_cons]
      simp [pyIsWs, Char.isWhitespace]
    rw [h1, h2, nonWsChars_pyJoinWords (v :: rest)
      fun u hu c hc => h u (by simp [List.mem_cons.mp hu]) c hc]
    simp [List.append_assoc]

theorem nonWsChars_pyCleanup (s : List Char) :
    nonWsChars (pyCleanup s) = nonWsChars s := by
  simp only [pyCleanup]
  rw [nonWsChars_pyStrip,
    nonWsChars_pyJoinWords (pySplit s) fun w hw => pySplit_no_ws hw,
    pySplit_flatten]

/-! ## Claim C6: reconnect backoff -/

/-- Claim C6: the reconnect backoff delay equals
`min(2 ^ reconnectAttempts + uniformRandom(0,1), 10)` seconds; for any fixed
jitter value in `[0, 1)` it is monotonically non-decreasing in the attempt
count, `delay(0) ∈ [1, 2)`, `delay(1) ∈ [2, 3)`, `delay(4) ∈ [16, 17)` before
capping, and `delay(n) ≤ 10` for every `n`. -/
theorem backoff_delay_spec (j : ℚ) (h0 : 0 ≤ j) (h1 : j < 1) :
    (∀ m n : ℕ, m ≤ n → backoffDelay m j ≤ backoffDelay n j) ∧
    (1 ≤ backoffDelay 0 j ∧ backoffDelay 0 j < 2) ∧
    (2 ≤ backoffDelay 1 j ∧ backoffDelay 1 j < 3) ∧
    (16 ≤ backoffRaw 4 j ∧ backoffRaw 4 j < 17) ∧
    (∀ n : ℕ, backoffDelay n j ≤ 10) := by
  have r0 : backoffRaw 0 j = 1 + j := by norm_num [backoffRaw]
  have r1 : backoffRaw 1 j = 2 + j := by norm_num [backoffRaw]
  have r4 : backoffRaw 4 j = 16 + j := by norm_num [backoffRaw]
  refine ⟨?_, ?_, ?_, ?_, ?_⟩
  · intro m n hmn
    have hp : (2 : ℚ) ^ m ≤ 2 ^ n := pow_le_pow_right₀ (by norm_num) hmn
    exact min_le_min (add_le_add_right hp j) le_rfl
  · constructor
    · rw [backoffDelay, r0, min_eq_left (by linarith)]
      linarith
    · rw [backoffDelay, r0, min_eq_left (by linarith)]
      linarith
  · constructor
    · rw [backoffDelay, r1, min_eq_left (by linarith)]
      linarith
    · rw [backoffDelay, r1, min_eq_left (by linarith)]
      linarith
  · exact ⟨by rw [r4]; linarith, by rw [r4]; linarith⟩
  · intro n
    exact min_le_right _ _

/-- Concrete instantiation of `backoff_delay_spec` at jitter `1/2`. -/
theorem backoff_delay_spec_witness :
    (∀ m n : ℕ, m ≤ n → backoffDelay m (mkRat 1 2) ≤ backoffDelay n (mkRat 1 2)) ∧
    (1 ≤ backoffDelay 0 (mkRat 1 2) ∧ backoffDelay 0 (mkRat 1 2) < 2) ∧
    (2 ≤ backoffDelay 1 (mkRat 1 2) ∧ backoffDelay 1 (mkRat 1 2) < 3) ∧
    (16 ≤ backoffRaw 4 (mkRat 1 2) ∧ backoffRaw 4 (mkRat 1 2) < 17) ∧
    (∀ n : ℕ, backoffDelay n (mkRat 1 2) ≤ 10) :=
  backoff_delay_spec (mkRat 1 2) (by decide) (by decide)

/-! ## Claim C2: the spec's merge example -/

set_option maxRecDepth 8192 in
/-- Claim C2 (code bug): on the specification's own example the source's
word-level construction removes the overlapping word from BOTH fragments
(`old_words[:-k]` and `new_words[k:]`), so
`merge("hello how are", "are you doing")` evaluates to
`"hello how you doing"`, not the specified `"hello how are you doing"`; the
chosen overlap is the word-level exact overlap of length 1 the claim
describes. -/
theorem merge_example_drops_overlap :
    mergeStrings "hello how are".data "are you doing".data =
      "hello how you doing".data ∧
    mergeStrings "hello how are".data "are you doing".data ≠
      "hello how are you doing".data ∧
    mergePath "hello how are".data "are you doing".data = .wordPath 1 := by
  decide

/-! ## Claim C5: empty and whitespace-only inputs -/

set_option maxRecDepth 8192 in
/-- Claim C5 counterexample: a whitespace-only (non-empty) input is not
dropped: `merge("   ", "hello")` returns `"    hello"` (plain concatenation
with an added space), which is neither of the two inputs. -/
theorem merge_whitespace_counterexample :
    mergeStrings "   ".data "hello".data = "    hello".data ∧
    mergeStrings "   ".data "hello".data ≠ "hello".data ∧
    mergeStrings "   ".data "hello".data ≠ "   ".data := by
  decide

theorem all_ws_pyLower {s : List Char} (h : ∀ c ∈ s, pyIsWs c = true) :
    ∀ c ∈ pyLower s, pyIsWs c = true := by
  intro c hc
  simp only [pyLower, List.mem_map] at hc
  obtain ⟨d, hd, rfl⟩ := hc
  have hw := h d hd
  have : d.toLower = d := by
    simp only [pyIsWs, Char.isWhitespace] at hw
    rcases (by simpa using hw :
        ((d = ' ' ∨ d = '\t') ∨ d = '\r') ∨ d = '\n') with
      ((rfl | rfl) | rfl) | rfl <;> decide
  rw [this]
  exact h d hd

theorem pySplitGo_all_ws {s : List Char} (h : ∀ c ∈ s, pyIsWs c = true) :
    pySplitGo [] s = [] := by
  induction s with
  | nil => rfl
  | cons c cs ih =>
    have hc : pyIsWs c = true := h c (by simp)
    simp only [pySplitGo, if_pos hc, if_pos rfl]
    exact ih fun d hd => h d (by simp [hd])

theorem pySplit_all_ws_of_input {s : List Char} (h : ∀ c ∈ s, pyIsWs c = true) :
    pySplit (pyStrip (pyLower s)) = [] := by
  refine pySplitGo_all_ws fun c hc => ?_
  exact all_ws_pyLower h c (pyStrip_subset _ hc)

/-- Claim C5 (amended): `merge("", x) = x` and `merge(x, "") = x` hold for
every string `x`; but a whitespace-only non-empty input is NOT returned as
"the other input unchanged": whenever both inputs are non-empty and at least
one consists only of whitespace, the word loop is skipped and the result is
the plain concatenation `old + " " + new`. -/
theorem merge_empty_identity_ws_concat :
    (∀ x : List Char, mergeStrings [] x = x ∧ mergeStrings x [] = x) ∧
    (∀ old new : List Char, old ≠ [] → new ≠ [] →
      ((∀ c ∈ old, pyIsWs c = true) ∨ (∀ c ∈ new, pyIsWs c = true)) →
      mergeStrings old new = old ++ ' ' :: new) := by
  constructor
  · intro x
    constructor
    · simp [mergeStrings]
    · by_cases hx : x = []
      · subst hx
        simp [mergeStrings]
      · simp [mergeStrings, hx]
  · intro old new ho hn hw
    have hwords : pySplit (pyStrip (pyLower old)) = [] ∨
        pySplit (pyStrip (pyLower new)) = [] := by
      rcases hw with h | h
      · exact Or.inl (pySplit_all_ws_of_input h)
      · exact Or.inr (pySplit_all_ws_of_input h)
    simp only [mergeStrings, if_neg ho, if_neg hn]
    rw [if_pos hwords, if_pos ⟨ho, hn⟩]

/-- Concrete instantiation of `merge_empty_identity_ws_concat`: the identity
laws at `x = "anything"` and the whitespace law at `("   ", "hello")`. -/
theorem merge_empty_identity_ws_concat_witness :
    (mergeStrings [] "anything".data = "anything".data ∧
      mergeStrings "anything".data [] = "anything".data) ∧
    mergeStrings "   ".data "hello".data = "   ".data ++ ' ' :: "hello".data :=
  ⟨merge_empty_identity_ws_concat.1 "anything".data,
    merge_empty_identity_ws_concat.2 "   ".data "hello".data (by decide)
      (by decide) (Or.inl (by decide))⟩

/-! ## Claim C1: turn finalization in endpoint-aggregated mode -/

theorem handleTurnInfo_eq (s : FluxTurnState) (tr : List Char) (conf now : ℚ)
    (hpos : ∀ t, s.last_turn_time = some t → 0 < t) :
    handleTurnInfo s tr conf now =
      if pyStrip tr ≠ [] ∧ pyStrip tr ≠ s.last_transcript ∧ mkRat 3 5 < conf ∧
          (s.last_turn_time = none ∨
            ∃ t, s.last_turn_time = some t ∧ turnThreshold < now - t)
      then (⟨some now, pyStrip tr⟩, some (pyStrip tr)) else (s, none) := by
  rcases hlt : s.last_turn_time with _ | t
  · simp only [handleTurnInfo, hlt]
    by_cases h1 : pyStrip tr = [] ∨ pyStrip tr = s.last_transcript
    · rw [if_pos h1, if_neg fun hC => h1.elim (fun he => hC.1 he) fun he => hC.2.1 he]
    · push_neg at h1
      rw [if_neg (by tauto)]
      by_cases h2 : mkRat 3 5 < conf
      · rw [if_pos ⟨h2, by trivial⟩, if_pos ⟨h1.1, h1.2, h2, Or.inl (by trivial)⟩]
      · rw [if_neg fun hc => h2 hc.1, if_neg fun hC => h2 hC.2.2.1]
  · have ht0 : t ≠ 0 := by
      intro h
      exact absurd (hpos t hlt) (by simp [h])
    simp only [handleTurnInfo, hlt, if_neg ht0]
    by_cases h1 : pyStrip tr = [] ∨ pyStrip tr = s.last_transcript
    · rw [if_pos h1, if_neg fun hC => h1.elim (fun he => hC.1 he) fun he => hC.2.1 he]
    · push_neg at h1
      rw [if_neg (by tauto)]
      by_cases h2 : mkRat 3 5 < conf
      · by_cases h3 : turnThreshold < now - t
        · rw [if_pos ⟨h2, by simp [h3]⟩,
            if_pos ⟨h1.1, h1.2, h2, Or.inr ⟨t, rfl, h3⟩⟩]
        · rw [if_neg (by simp [h3]), if_neg ?_]
          rintro ⟨-, -, -, hor⟩
          rcases hor with h | ⟨t', ht', hgt⟩
          · exact absurd h (by simp)
          · rw [Option.some.injEq] at ht'
            exact h3 (ht' ▸ hgt)
      · rw [if_neg fun hc => h2 hc.1, if_neg fun hC => h2 hC.2.2.1]

/-- Claim C1 counterexample: a whitespace-only transcript satisfies every
condition the claim lists (it differs from `lastFinalizedText = "hello"`,
confidence `0.9 > 0.6`, the last-turn timestamp is unset), yet
`_handle_turn_info` does not finalize it and leaves the state unchanged,
because the code additionally requires the stripped transcript to be
non-empty. -/
theorem turn_info_whitespace_counterexample :
    (pyStrip "   ".data ≠ ("hello".data : List Char) ∧
      mkRat 3 5 < mkRat 9 10 ∧
      (⟨none, "hello".data⟩ : FluxTurnState).last_turn_time = none) ∧
    handleTurnInfo ⟨none, "hello".data⟩ "   ".data (mkRat 9 10) 100 =
      (⟨none, "hello".data⟩, none) := by
  decide

/-- Claim C1 (amended): for states whose stored timestamp is a positive time,
a turn event is finalized — the callback receives the stripped transcript and
`last_turn_time` / `last_transcript` are updated — exactly when the stripped
transcript is non-empty AND differs from `lastFinalizedText` AND
`confidence > 0.6` AND (`lastTurnTimestamp` is unset OR more than the
5-second threshold has passed); otherwise the event leaves the state
unchanged.  In particular a turn with confidence `0.5` is never finalized, a
turn arriving 3 seconds after the prior finalized turn is suppressed, and a
differing confident turn arriving 6 seconds later is finalized. -/
theorem turn_info_finalize_iff (s : FluxTurnState) (transcript : List Char)
    (confidence now : ℚ) (hpos : ∀ t, s.last_turn_time = some t → 0 < t) :
    (handleTurnInfo s transcript confidence now =
        (⟨some now, pyStrip transcript⟩, some (pyStrip transcript)) ↔
      pyStrip transcript ≠ [] ∧ pyStrip transcript ≠ s.last_transcript ∧
        mkRat 3 5 < confidence ∧
        (s.last_turn_time = none ∨
          ∃ t, s.last_turn_time = some t ∧ turnThreshold < now - t)) ∧
    (handleTurnInfo s transcript confidence now ≠
        (⟨some now, pyStrip transcript⟩, some (pyStrip transcript)) →
      handleTurnInfo s transcript confidence now = (s, none)) ∧
    (handleTurnInfo s transcript (mkRat 1 2) now).2 = none ∧
    (∀ t, s.last_turn_time = some t → now - t = 3 →
      (handleTurnInfo s transcript confidence now).2 = none) ∧
    (∀ t, s.last_turn_time = some t → now - t = 6 →
      pyStrip transcript ≠ [] → pyStrip transcript ≠ s.last_transcript →
      mkRat 3 5 < confidence →
      handleTurnInfo s transcript confidence now =
        (⟨some now, pyStrip transcript⟩, some (pyStrip transcript))) := by
  refine ⟨?_, ?_, ?_, ?_, ?_⟩
  · rw [handleTurnInfo_eq s transcript confidence now hpos]
    split_ifs with hC
    · simp [hC]
    · simp only [hC, iff_false]
      intro h
      rw [Prod.mk.injEq] at h
      exact Option.noConfusion h.2
  · rw [handleTurnInfo_eq s transcript confidence now hpos]
    split_ifs with hC
    · intro h
      exact absurd rfl h
    · intro _
      rfl
  · rw [handleTurnInfo_eq s transcript (mkRat 1 2) now hpos]
    rw [if_neg fun hC => absurd hC.2.2.1 (by decide)]
  · intro t ht h3
    rw [handleTurnInfo_eq s transcript confidence now hpos,
      if_neg ?_]
    rintro ⟨-, -, -, hor⟩
    rcases hor with h | ⟨t', ht', hgt⟩
    · rw [ht] at h
      exact Option.noConfusion h
    · rw [ht, Option.some.injEq] at ht'
      rw [← ht', h3] at hgt
      exact absurd hgt (by norm_num [turnThreshold])
  · intro t ht h6 hne hdiff hconf
    rw [handleTurnInfo_eq s transcript confidence now hpos,
      if_pos ⟨hne, hdiff, hconf,
        Or.inr ⟨t, ht, by rw [h6]; norm_num [turnThreshold]⟩⟩]

/-- Concrete instantiation of `turn_info_finalize_iff` at the state
`(lastTurnTimestamp = 10, lastFinalizedText = "x")`: a differing turn with
confidence `0.9` arriving at time 16 (6 seconds later) is finalized; the same
turn arriving at time 13 (3 seconds later) is suppressed; confidence `0.5` is
never finalized. -/
theorem turn_info_finalize_iff_witness :
    handleTurnInfo ⟨some 10, "x".data⟩ "hello there".data (mkRat 9 10) 16 =
      (⟨some 16, "hello there".data⟩, some "hello there".data) ∧
    (handleTurnInfo ⟨some 10, "x".data⟩ "hello there".data (mkRat 9 10) 13).2 =
      none ∧
    (handleTurnInfo ⟨some 10, "x".data⟩ "hello there".data (mkRat 1 2) 16).2 =
      none := by
  have hpos : ∀ t : ℚ, (⟨some 10, "x".data⟩ : FluxTurnState).last_turn_time =
      some t → 0 < t := by
    intro t ht
    rw [Option.some.injEq] at ht
    rw [← ht]
    norm_num
  refine ⟨?_, ?_, ?_⟩
  · have h := (turn_info_finalize_iff ⟨some 10, "x".data⟩ "hello there".data
      (mkRat 9 10) 16 hpos).2.2.2.2 10 rfl (by norm_num) (by decide) (by decide)
      (by decide)
    simpa using h
  · exact (turn_info_finalize_iff ⟨some 10, "x".data⟩ "hello there".data
      (mkRat 9 10) 13 hpos).2.2.2.1 10 rfl (by norm_num)
  · exact (turn_info_finalize_iff ⟨some 10, "x".data⟩ "hello there".data
      (mkRat 9 10) 16 hpos).2.2.1

/-! ## Claim C7: stage advancement -/

/-- Claim C7: over the 3-stage demo catalog a session at index 0 advances to
index 1, then 2, and the third advance triggers `end_session` and returns
without advancing; in general, whenever `currentStageIndex < len(stages)`,
`move_to_next_stage` keeps the index in `[0, len(stages))` and increments it
exactly when `currentStageIndex + 1 < len(stages)`, ending the session
otherwise. -/
theorem move_to_next_stage_spec :
    ((moveToNextStage demoSession).1.current_stage_index = 1 ∧
      (moveToNextStage demoSession).2.1 = true ∧
      (moveToNextStage (moveToNextStage demoSession).1).1.current_stage_index = 2 ∧
      (moveToNextStage (moveToNextStage demoSession).1).2.1 = true ∧
      moveToNextStage (moveToNextStage (moveToNextStage demoSession).1).1 =
        ((moveToNextStage (moveToNextStage demoSession).1).1, false,
          [ConvEvent.endSessionEv])) ∧
    (∀ s : ConvState, s.current_stage_index < s.stages.length →
      (moveToNextStage s).1.current_stage_index < (moveToNextStage s).1.stages.length ∧
      ((moveToNextStage s).1.current_stage_index = s.current_stage_index + 1 ↔
        s.current_stage_index + 1 < s.stages.length) ∧
      ((moveToNextStage s).2.1 = true ↔
        s.current_stage_index + 1 < s.stages.length) ∧
      ((moveToNextStage s).2.1 = false →
        (moveToNextStage s).1 = s ∧ (moveToNextStage s).2.2 =
          [ConvEvent.endSessionEv])) := by
  constructor
  · decide
  · intro s h
    by_cases hlt : s.current_stage_index + 1 < s.stages.length
    · simp [moveToNextStage, hlt]
    · simp [moveToNextStage, hlt]
      omega

/-- Concrete instantiation of `move_to_next_stage_spec` at the demo session
(index 0 of 3 stages). -/
theorem move_to_next_stage_spec_witness :
    (moveToNextStage demoSession).1.current_stage_index <
      (moveToNextStage demoSession).1.stages.length ∧
    ((moveToNextStage demoSession).1.current_stage_index =
        demoSession.current_stage_index + 1 ↔
      demoSession.current_stage_index + 1 < demoSession.stages.length) ∧
    ((moveToNextStage demoSession).2.1 = true ↔
      demoSession.current_stage_index + 1 < demoSession.stages.length) ∧
    ((moveToNextStage demoSession).2.1 = false →
      (moveToNextStage demoSession).1 = demoSession ∧
      (moveToNextStage demoSession).2.2 = [ConvEvent.endSessionEv]) :=
  move_to_next_stage_spec.2 demoSession (by decide)

/-! ## Claim C8: hydration -/

/-- Claim C8 counterexample: hydrating with a stored id that resolves to the
second stage of a two-stage catalog copies that stage's fields, but leaves
`current_stage_index = 0`, which is not the resolved stage's position 1 in
the ordered catalog — the stage pointer's position is NOT restored. -/
theorem hydrate_position_counterexample :
    (getDbData (some ⟨some "bbbbbbbbbbbbbbbbbbbbbbbb".data⟩)
        [stageOne, stageTwo] convInit).1.current_stage_name =
      some stageTwo.name ∧
    (getDbData (some ⟨some "bbbbbbbbbbbbbbbbbbbbbbbb".data⟩)
        [stageOne, stageTwo] convInit).1.current_stage_index = 0 ∧
    [stageOne, stageTwo].findIdx (fun st => st.id == stageTwo.id) = 1 := by
  decide

/-- Claim C8 (amended): when the stored current-stage id resolves to a stage
in the loaded catalog, hydration copies that stage's id, name, description,
goal and order into the session, but does not update `current_stage_index`
(it stays at its initialization value 0); when the stored id is absent,
malformed, or not found in the catalog, hydration sets `isNewProject = true`
and points the `current_*` fields at the first stage of a non-empty catalog,
again leaving the index unchanged and raising nothing. -/
theorem hydrate_spec (memory : Option MemoryRec) (stages : List StageDef)
    (s : ConvState) :
    (∀ m raw oid st, memory = some m → m.current_stage_id = some raw →
      raw ≠ [] → objectIdCanon raw = some oid →
      stages.find? (fun x => x.id = oid) = some st →
      getDbData memory stages s =
        ({ s with
            stages := stages
            current_stage_id := some st.id
            current_stage_name := some st.name
            current_stage_description := some st.description
            current_stage_goal := some st.goal
            current_stage_order := some st.order }, [], none)) ∧
    (∀ first rest, stages = first :: rest →
      (memory = none ∨
        ∃ m, memory = some m ∧
          (m.current_stage_id = none ∨ m.current_stage_id = some [] ∨
            (∃ raw, m.current_stage_id = some raw ∧ objectIdCanon raw = none) ∨
            (∃ raw oid, m.current_stage_id = some raw ∧ raw ≠ [] ∧
              objectIdCanon raw = some oid ∧
              stages.find? (fun x => x.id = oid) = none))) →
      getDbData memory stages s =
        ({ s with
            stages := stages
            is_new_project := true
            current_stage_id := some first.id
            current_stage_name := some first.name
            current_stage_description := some first.description
            current_stage_goal := some first.goal
            current_stage_order := some first.order }, [], none)) := by
  constructor
  · rintro m raw oid st rfl hraw hne hoid hfind
    simp [getDbData, hraw, hne, hoid, hfind]
  · rintro first rest rfl hcase
    rcases hcase with rfl | ⟨m, rfl, hm⟩
    · simp [getDbData, setFirstStage]
    · rcases hm with hm | hm | ⟨raw, hraw, hbad⟩ | ⟨raw, oid, hraw, hne, hoid, hmiss⟩
      · simp [getDbData, hm, setFirstStage]
      · simp [getDbData, hm, setFirstStage]
      · by_cases hre : raw = []
        · simp [getDbData, hraw, hre, setFirstStage]
        · simp [getDbData, hraw, hre, hbad, setFirstStage]
      · simp [getDbData, hraw, hne, hoid, hmiss, setFirstStage]

/-- Concrete instantiation of `hydrate_spec`: the stored id of `stageOne`
resolves and its fields are copied with the index untouched; a session with
no stored memory falls back to the first stage with `isNewProject = true`. -/
theorem hydrate_spec_witness :
    getDbData (some ⟨some "aaaaaaaaaaaaaaaaaaaaaaaa".data⟩) demoCatalog convInit =
      ({ convInit with
          stages := demoCatalog
          current_stage_id := some stageOne.id
          current_stage_name := some stageOne.name
          current_stage_description := some stageOne.description
          current_stage_goal := some stageOne.goal
          current_stage_order := some stageOne.order }, [], none) ∧
    getDbData none demoCatalog convInit =
      ({ convInit with
          stages := demoCatalog
          is_new_project := true
          current_stage_id := some stageOne.id
          current_stage_name := some stageOne.name
          current_stage_description := some stageOne.description
          current_stage_goal := some stageOne.goal
          current_stage_order := some stageOne.order }, [], none) :=
  ⟨(hydrate_spec (some ⟨some "aaaaaaaaaaaaaaaaaaaaaaaa".data⟩) demoCatalog
      convInit).1 ⟨some "aaaaaaaaaaaaaaaaaaaaaaaa".data⟩
      "aaaaaaaaaaaaaaaaaaaaaaaa".data (pyLower "aaaaaaaaaaaaaaaaaaaaaaaa".data)
      stageOne rfl rfl (by decide) (by decide) (by decide),
    (hydrate_spec none demoCatalog convInit).2 stageOne [stageTwo, stageThree]
      rfl (Or.inl rfl)⟩

/-! ## Claim C9: empty catalog -/

/-- Claim C9 counterexample: with an empty catalog `_set_first_stage` does
send the "No stages found in database" error notice, but `send_error` then
always raises `WebSocketException(code=1011)`, which propagates out of
`_set_first_stage` — so "the operation does not propagate an exception" is
false. -/
theorem set_first_stage_counterexample :
    ConvEvent.errorEv "No stages found in database".data ∈
      (setFirstStage convInit).2.1 ∧
    (setFirstStage convInit).2.2 ≠ none := by
  decide

/-- Claim C9 (amended): for any session state with an empty stage catalog,
`_set_first_stage` sends the error notice "No stages found in database" and
closes the socket (no uncontrolled crash, no stage field is touched), after
which the `WebSocketException(code=1011)` that `send_error` unconditionally
raises propagates out of `_set_first_stage`. -/
theorem set_first_stage_empty_catalog (s : ConvState) (h : s.stages = []) :
    setFirstStage s =
      (s, [ConvEvent.errorEv "No stages found in database".data,
            ConvEvent.closeEv],
        some ⟨1011, "No stages found in database".data⟩) := by
  obtain ⟨stgs, idx, a, b, c, d, e, f⟩ := s
  simp only at h
  subst h
  rfl

/-- Concrete instantiation of `set_first_stage_empty_catalog` at the freshly
constructed session state. -/
theorem set_first_stage_empty_catalog_witness :
    setFirstStage convInit =
      (convInit, [ConvEvent.errorEv "No stages found in database".data,
            ConvEvent.closeEv],
        some ⟨1011, "No stages found in database".data⟩) :=
  set_first_stage_empty_catalog convInit rfl

/-! ## Claims C3 and C4: reconnect lifecycle -/

theorem fluxHDGo_not_connected (fuel : ℕ) (ok : Bool) (s : FluxConnState)
    (h : s.is_connected = false) : fluxHDGo fuel ok s = (s, []) := by
  simp only [fluxHDGo.eq_def]
  rw [if_pos h]

theorem fluxStartGo_success (fuel : ℕ) (s : FluxConnState) :
    fluxStartGo fuel true s =
      ({ is_connected := true, reconnect_attempts := 0, has_ws := true },
        [ConnEvent.connectSuccess]) := by
  simp only [fluxStartGo.eq_def]
  simp

theorem fluxStartGo_fail (fuel : ℕ) (s : FluxConnState) :
    fluxStartGo fuel false s =
      (fluxCleanupConnection s, [ConnEvent.connectFail]) := by
  cases fuel with
  | zero =>
    simp only [fluxStartGo.eq_def]
    simp
  | succ n =>
    simp only [fluxStartGo.eq_def]
    simp [fluxHDGo_not_connected n false (fluxCleanupConnection s)
      (by simp [fluxCleanupConnection])]

theorem fluxHDGo_terminal (fuel : ℕ) (ok : Bool) (s : FluxConnState)
    (hc : s.is_connected = true)
    (hm : maxReconnectAttempts ≤ s.reconnect_attempts) :
    fluxHDGo fuel ok s =
      ({ is_connected := false, reconnect_attempts := s.reconnect_attempts,
          has_ws := false }, [ConnEvent.terminalFailure]) := by
  simp only [fluxHDGo.eq_def]
  rw [if_neg (by simp [hc])]
  simp [fluxCleanupConnection, hm]

theorem fluxHDGo_retry (fuel : ℕ) (ok : Bool) (s : FluxConnState)
    (hc : s.is_connected = true)
    (hm : s.reconnect_attempts < maxReconnectAttempts) :
    fluxHDGo (fuel + 1) ok s =
      if ok then
        ({ is_connected := true, reconnect_attempts := 0, has_ws := true },
          [ConnEvent.sleepEv, ConnEvent.startCall, ConnEvent.connectSuccess])
      else
        ({ is_connected := false,
            reconnect_attempts := s.reconnect_attempts + 1, has_ws := false },
          [ConnEvent.sleepEv, ConnEvent.startCall, ConnEvent.connectFail]) := by
  simp only [fluxHDGo.eq_def]
  rw [if_neg (by simp [hc])]
  rw [if_neg (by simp [fluxCleanupConnection]; omega)]
  cases ok with
  | true => simp [fluxStartGo_success, fluxCleanupConnection]
  | false => simp [fluxStartGo_fail, fluxCleanupConnection]

theorem fluxApply_step_characterization (s : FluxConnState) (act : FluxAction) :
    (((fluxApply act s).1.reconnect_attempts = 0 ∧ s.reconnect_attempts ≠ 0) →
      ConnEvent.connectSuccess ∈ (fluxApply act s).2) ∧
    (ConnEvent.connectSuccess ∈ (fluxApply act s).2 →
      (fluxApply act s).1.reconnect_attempts = 0 ∧
      (fluxApply act s).1.is_connected = true) ∧
    (((fluxApply act s).1.reconnect_attempts ≠ s.reconnect_attempts ∧
        (fluxApply act s).1.reconnect_attempts ≠ 0) →
      (fluxApply act s).1.reconnect_attempts = s.reconnect_attempts + 1 ∧
      ConnEvent.startCall ∈ (fluxApply act s).2) := by
  cases act with
  | startA ok =>
    cases ok with
    | true => simp [fluxApply, fluxStart, fluxStartGo_success]
    | false => simp [fluxApply, fluxStart, fluxStartGo_fail, fluxCleanupConnection]
  | triggerA ok =>
    by_cases hc : s.is_connected = false
    · simp [fluxApply, fluxHandleDisconnect, fluxHDGo_not_connected 2 ok s hc]
    · rw [Bool.not_eq_false] at hc
      by_cases hm : maxReconnectAttempts ≤ s.reconnect_attempts
      · simp [fluxApply, fluxHandleDisconnect, fluxHDGo_terminal 2 ok s hc hm]
      · rw [Nat.not_le] at hm
        cases ok with
        | true =>
          simp [fluxApply, fluxHandleDisconnect, fluxHDGo_retry 1 true s hc hm]
        | false =>
          simp [fluxApply, fluxHandleDisconnect, fluxHDGo_retry 1 false s hc hm]
  | finishA => simp [fluxApply, fluxCleanupConnection]

theorem fluxApply_attempts_le (s : FluxConnState) (act : FluxAction)
    (h : s.reconnect_attempts ≤ maxReconnectAttempts) :
    (fluxApply act s).1.reconnect_attempts ≤ maxReconnectAttempts := by
  cases act with
  | startA ok =>
    cases ok with
    | true => simp [fluxApply, fluxStart, fluxStartGo_success]
    | false => simpa [fluxApply, fluxStart, fluxStartGo_fail, fluxCleanupConnection]
        using h
  | triggerA ok =>
    by_cases hc : s.is_connected = false
    · simpa [fluxApply, fluxHandleDisconnect, fluxHDGo_not_connected 2 ok s hc]
        using h
    · rw [Bool.not_eq_false] at hc
      by_cases hm : maxReconnectAttempts ≤ s.reconnect_attempts
      · simpa [fluxApply, fluxHandleDisconnect, fluxHDGo_terminal 2 ok s hc hm]
          using h
      · rw [Nat.not_le] at hm
        cases ok with
        | true =>
          simp [fluxApply, fluxHandleDisconnect, fluxHDGo_retry 1 true s hc hm]
        | false =>
          simp [fluxApply, fluxHandleDisconnect, fluxHDGo_retry 1 false s hc hm]
          omega
  | finishA => simpa [fluxApply, fluxCleanupConnection] using h

/-- Claim C3: in every reachable state of the `FluxSTT` client
`reconnect_attempts` stays within `[0, max_reconnect_attempts]`; moreover, in
any step of the connection state machine, `reconnect_attempts` drops to zero
exactly when a fresh connection succeeds (a `connectSuccess` outcome of
`start`), and any other change is an increment by one performed by the
reconnect path of `_handle_disconnect` on its way to the retry `start()`
call. -/
theorem flux_reconnect_attempts_invariant :
    (∀ s : FluxConnState, FluxReachable s →
      0 ≤ s.reconnect_attempts ∧
        s.reconnect_attempts ≤ maxReconnectAttempts) ∧
    (∀ (s : FluxConnState) (act : FluxAction),
      (((fluxApply act s).1.reconnect_attempts = 0 ∧ s.reconnect_attempts ≠ 0) →
        ConnEvent.connectSuccess ∈ (fluxApply act s).2) ∧
      (ConnEvent.connectSuccess ∈ (fluxApply act s).2 →
        (fluxApply act s).1.reconnect_attempts = 0 ∧
        (fluxApply act s).1.is_connected = true) ∧
      (((fluxApply act s).1.reconnect_attempts ≠ s.reconnect_attempts ∧
          (fluxApply act s).1.reconnect_attempts ≠ 0) →
        (fluxApply act s).1.reconnect_attempts = s.reconnect_attempts + 1 ∧
        ConnEvent.startCall ∈ (fluxApply act s).2)) := by
  constructor
  · intro s hs
    refine ⟨Nat.zero_le _, ?_⟩
    induction hs with
    | refl => decide
    | tail _ hstep ih =>
      obtain ⟨act, rfl⟩ := hstep
      exact fluxApply_attempts_le _ act ih
  · exact fluxApply_step_characterization

/-- Concrete instantiation of `flux_reconnect_attempts_invariant`: the bound
at the freshly constructed (reachable) client, and the step characterization
at a connected state with one attempt recorded, under a failing trigger. -/
theorem flux_reconnect_attempts_invariant_witness :
    (0 ≤ fluxInit.reconnect_attempts ∧
      fluxInit.reconnect_attempts ≤ maxReconnectAttempts) ∧
    ((((fluxApply (FluxAction.triggerA false) ⟨true, 1, true⟩).1.reconnect_attempts = 0 ∧
        (1 : ℕ) ≠ 0) →
      ConnEvent.connectSuccess ∈
        (fluxApply (FluxAction.triggerA false) ⟨true, 1, true⟩).2) ∧
    (ConnEvent.connectSuccess ∈
        (fluxApply (FluxAction.triggerA false) ⟨true, 1, true⟩).2 →
      (fluxApply (FluxAction.triggerA false) ⟨true, 1, true⟩).1.reconnect_attempts = 0 ∧
      (fluxApply (FluxAction.triggerA false) ⟨true, 1, true⟩).1.is_connected = true) ∧
    (((fluxApply (FluxAction.triggerA false) ⟨true, 1, true⟩).1.reconnect_attempts ≠ 1 ∧
        (fluxApply (FluxAction.triggerA false) ⟨true, 1, true⟩).1.reconnect_attempts ≠ 0) →
      (fluxApply (FluxAction.triggerA false) ⟨true, 1, true⟩).1.reconnect_attempts = 1 + 1 ∧
      ConnEvent.startCall ∈
        (fluxApply (FluxAction.triggerA false) ⟨true, 1, true⟩).2)) :=
  ⟨flux_reconnect_attempts_invariant.1 fluxInit Relation.ReflTransGen.refl,
    flux_reconnect_attempts_invariant.2 ⟨true, 1, true⟩ (FluxAction.triggerA false)⟩

/-- Claim C4 counterexample: the `STT` variant's `_handle_disconnect`
(src/EVAA/services/stt.py) has no already-disconnected guard: called on a
disconnected client with `reconnect_attempts = 0` it still sleeps, increments
the counter and calls `start()` — not a no-op that leaves the connection
state unchanged. -/
theorem stt_disconnect_not_noop_counterexample :
    sttHandleDisconnect false ⟨false, 0, false⟩ =
      (⟨false, 1, false⟩,
        [ConnEvent.sleepEv, ConnEvent.startCall, ConnEvent.connectFail]) ∧
    (⟨false, 1, false⟩ : SttConnState) ≠ ⟨false, 0, false⟩ := by
  decide

/-- Claim C4 (amended): for the `FluxSTT` client the claim holds: once
`reconnect_attempts ≥ max_reconnect_attempts` is reached while connected,
`_handle_disconnect` reports the terminal failure with no sleep, no
increment and no `start()` call, every further call on the resulting
disconnected state is a strict no-op (so the report happens exactly once),
and calling it while already disconnected never changes state.  The `STT`
variant lacks the disconnected guard: it re-reports the terminal failure on
every call once `reconnect_attempts ≥ max`, and a call while already
disconnected with `reconnect_attempts < max` still sleeps, increments and
calls `start()`. -/
theorem handle_disconnect_terminal_spec :
    (∀ (s : FluxConnState) (ok : Bool),
      (s.is_connected = true → maxReconnectAttempts ≤ s.reconnect_attempts →
        fluxHandleDisconnect ok s =
          ({ is_connected := false,
              reconnect_attempts := s.reconnect_attempts, has_ws := false },
            [ConnEvent.terminalFailure]) ∧
        (∀ ok' : Bool,
          fluxHandleDisconnect ok'
              ⟨false, s.reconnect_attempts, false⟩ =
            (⟨false, s.reconnect_attempts, false⟩, []))) ∧
      (s.is_connected = false → fluxHandleDisconnect ok s = (s, []))) ∧
    (∀ (t : SttConnState) (ok : Bool),
      (maxReconnectAttempts ≤ t.reconnect_attempts →
        sttHandleDisconnect ok t =
          ({ t with is_connected := false }, [ConnEvent.terminalFailure])) ∧
      (t.is_connected = false → t.reconnect_attempts < maxReconnectAttempts →
        ConnEvent.sleepEv ∈ (sttHandleDisconnect ok t).2 ∧
        ConnEvent.startCall ∈ (sttHandleDisconnect ok t).2 ∧
        (sttHandleDisconnect ok t).1 ≠ t)) := by
  constructor
  · intro s ok
    constructor
    · intro hc hm
      exact ⟨fluxHDGo_terminal 2 ok s hc hm,
        fun ok' => fluxHDGo_not_connected 2 ok' _ rfl⟩
    · intro hc
      exact fluxHDGo_not_connected 2 ok s hc
  · intro t ok
    constructor
    · intro hm
      simp [sttHandleDisconnect, hm]
    · intro hc hm
      cases ok with
      | true =>
        refine ⟨?_, ?_, ?_⟩ <;>
          simp [sttHandleDisconnect, Nat.not_le.mpr hm, sttStart, sttCleanup]
        intro h
        rw [← h] at hc
        simp at hc
      | false =>
        refine ⟨?_, ?_, ?_⟩ <;>
          simp [sttHandleDisconnect, Nat.not_le.mpr hm, sttStart, sttCleanup]
        intro h
        have h2 := congrArg SttConnState.reconnect_attempts h
        simp at h2

/-- Concrete instantiation of `handle_disconnect_terminal_spec`: the Flux
client at the retry cap reports once then no-ops, and the STT variant at the
cap re-reports while a disconnected sub-cap call sleeps. -/
theorem handle_disconnect_terminal_spec_witness :
    fluxHandleDisconnect false ⟨true, 5, true⟩ =
      (⟨false, 5, false⟩, [ConnEvent.terminalFailure]) ∧
    fluxHandleDisconnect true ⟨false, 5, false⟩ = (⟨false, 5, false⟩, []) ∧
    sttHandleDisconnect false ⟨false, 5, false⟩ =
      (⟨false, 5, false⟩, [ConnEvent.terminalFailure]) ∧
    ConnEvent.sleepEv ∈ (sttHandleDisconnect false ⟨false, 0, false⟩).2 :=
  ⟨((handle_disconnect_terminal_spec.1 ⟨true, 5, true⟩ false).1 rfl
      (by decide)).1,
    (handle_disconnect_terminal_spec.1 ⟨false, 5, false⟩ true).2 rfl,
    (handle_disconnect_terminal_spec.2 ⟨false, 5, false⟩ false).1 (by decide),
    ((handle_disconnect_terminal_spec.2 ⟨false, 0, false⟩ false).2 rfl
      (by decide)).1⟩

/-! ## Claim C10: casing behaviour of the merge branches -/

theorem mergeStrings_branches (old new : List Char) (th : ℚ) :
    (∀ k, mergePath old new th = .wordPath k →
      mergeStrings old new th =
        pyCleanup (pyJoinWords ((pySplit (pyStrip (pyLower old))).take
            ((pySplit (pyStrip (pyLower old))).length - k)) ++
          ' ' :: pyJoinWords ((pySplit (pyStrip (pyLower new))).drop k))) ∧
    (∀ k, mergePath old new th = .charPath k →
      mergeStrings old new th =
        pyCleanup (old.take (old.length - k) ++ new.drop k)) ∧
    (mergePath old new th = .concatPath →
      mergeStrings old new th = pyCleanup (old ++ ' ' :: new)) := by
  by_cases ho : old = []
  · simp [mergePath, ho]
  by_cases hn : new = []
  · simp [mergePath, ho, hn]
  by_cases hW : pySplit (pyStrip (pyLower old)) = [] ∨
      pySplit (pyStrip (pyLower new)) = []
  · simp [mergePath, ho, hn, hW]
  simp only [mergePath, mergeStrings, if_neg ho, if_neg hn, if_neg hW]
  split_ifs with h1 h2 <;>
    refine ⟨?_, ?_, ?_⟩ <;> intros <;> simp_all

theorem toLower_fixed_of_mem_word_side {c : Char} {x : List Char}
    {ws : List (List Char)} (hws : ∀ w ∈ ws, w ∈ pySplit (pyStrip (pyLower x)))
    (hc : c ∈ pyJoinWords ws) : c.toLower = c := by
  rcases pyJoinWords_mem c ws hc with rfl | ⟨w, hw, hcw⟩
  · decide
  · exact mem_pyLower_fixed (pyStrip_subset _ (pySplit_word_subset (hws w hw) hcw))

/-- Claim C10: whenever `merge_strings` chooses a word-level overlap, the
result is assembled from the lowercased, normalized word lists of both
inputs, so the output equals its own lowercase (any original upper-case
character is lost); the character-level merge and the plain-concatenation
fallback instead assemble the result from the original inputs, whose
non-whitespace characters — original casing included — are carried over
verbatim. -/
theorem merge_word_path_lowercases (old new : List Char) (th : ℚ) :
    (∀ k, mergePath old new th = .wordPath k →
      pyLower (mergeStrings old new th) = mergeStrings old new th) ∧
    (∀ k, mergePath old new th = .charPath k →
      nonWsChars (mergeStrings old new th) =
        nonWsChars (old.take (old.length - k)) ++
          nonWsChars (new.drop k)) ∧
    (mergePath old new th = .concatPath →
      nonWsChars (mergeStrings old new th) =
        nonWsChars old ++ nonWsChars new) := by
  refine ⟨?_, ?_, ?_⟩
  · intro k hk
    rw [(mergeStrings_branches old new th).1 k hk]
    refine pyLower_eq_self fun c hc => ?_
    rcases pyCleanup_mem hc with rfl | hc0
    · decide
    rcases List.mem_append.mp hc0 with hcA | hcB
    · exact toLower_fixed_of_mem_word_side
        (fun w hw => List.take_subset _ _ hw) hcA
    rcases List.mem_cons.mp hcB with rfl | hcB'
    · decide
    · exact toLower_fixed_of_mem_word_side
        (fun w hw => List.drop_subset _ _ hw) hcB'
  · intro k hk
    rw [(mergeStrings_branches old new th).2.1 k hk, nonWsChars_pyCleanup,
      nonWsChars_append]
  · intro hk
    rw [(mergeStrings_branches old new th).2.2 hk, nonWsChars_pyCleanup,
      nonWsChars_append]
    congr 1

set_option maxRecDepth 8192 in
/-- Concrete instantiation of `merge_word_path_lowercases`: the word-overlap
merge of `"Hello World"` and `"world peace"` equals its own lowercase (the
capitals are lost); the character-level merge of `"abc"` and `"cd"` and the
concatenation of `"QQ"` and `"ZZ"` keep the original non-whitespace
characters of the contributing slices, upper case included. -/
theorem merge_word_path_lowercases_witness :
    pyLower (mergeStrings "Hello World".data "world peace".data (mkRat 7 10)) =
      mergeStrings "Hello World".data "world peace".data (mkRat 7 10) ∧
    nonWsChars (mergeStrings "abc".data "cd".data (mkRat 7 10)) =
      nonWsChars ("abc".data.take 2) ++ nonWsChars ("cd".data.drop 1) ∧
    nonWsChars (mergeStrings "QQ".data "ZZ".data (mkRat 7 10)) =
      nonWsChars "QQ".data ++ nonWsChars "ZZ".data :=
  ⟨(merge_word_path_lowercases "Hello World".data "world peace".data
      (mkRat 7 10)).1 1 (by decide),
    (merge_word_path_lowercases "abc".data "cd".data (mkRat 7 10)).2.1 1
      (by decide),
    (merge_word_path_lowercases "QQ".data "ZZ".data (mkRat 7 10)).2.2
      (by decide)⟩
